import Mathlib

/-!
Shallow embedding of the core of the `digital_verification_news` repository
(`src/utils.py` and `src/main.py`): the paper dictionaries, the retry
wrappers around the source adapters, the tag/topic filters, the column
projections, the DVCon abstract/year extraction heuristics and the Markdown
table renderer, together with theorems settling the specification claims.

Network, filesystem and OCR effects are modelled as explicit parameters
(oracles); every pure computation is translated directly from the Python
source.  Python `str` is modelled by `String` restricted to ASCII-faithful
operations, Python `datetime.datetime` by an explicit record validated the
way the CPython constructor validates its arguments.
-/

namespace DVNews

/-- Python `s.split(sep)` for a one-character separator, the only kind the
pipeline uses. -/
def splitOnChar (sep : Char) : List Char → List (List Char)
  | [] => [[]]
  | c :: rest =>
      if c = sep then [] :: splitOnChar sep rest
      else
        match splitOnChar sep rest with
        | l :: ls => (c :: l) :: ls
        | [] => [[c]]

/-- Python `sep.join(parts)`. -/
def joinWith (sep : List Char) (parts : List (List Char)) : List Char :=
  (parts.intersperse sep).flatten

/-- A Python comprehension whose body may raise: `none` as soon as one
element raises, else the list of results. -/
def mapMOpt {A B : Type} (f : A → Option B) : List A → Option (List B)
  | [] => some []
  | a :: rest => do
      let b ← f a
      let bs ← mapMOpt f rest
      some (b :: bs)

/-- A Python value stored in a paper dictionary: either a string or a list of
strings (`Authors`, `Tags`).  This is the value superset the adapters use. -/
inductive Val where
  | s (x : String)
  | l (xs : List String)
deriving DecidableEq, Repr

/-- A Python dict with string keys, in insertion order. -/
abbrev PDict := List (String × Val)

/-- `d[k]` lookup (first matching key): `none` models a raised `KeyError`. -/
def dictGet? (d : PDict) (k : String) : Option Val :=
  match d with
  | [] => none
  | (k0, v0) :: rest => if k0 = k then some v0 else dictGet? rest k

/-- `d.get(k, default)`. -/
def dictGetD (d : PDict) (k : String) (default : Val) : Val :=
  (dictGet? d k).getD default

/-- `d[k] = v`: update in place when the key exists, else append. -/
def dictSet (d : PDict) (k : String) (v : Val) : PDict :=
  if d.any (fun kv => kv.1 = k) then
    d.map (fun kv => if kv.1 = k then (k, v) else kv)
  else d ++ [(k, v)]

/-- `list(d.keys())`. -/
def dictKeys (d : PDict) : List String := d.map (fun kv => kv.1)

/-- Python `str(v)` as used by `str.format`: strings pass through, lists
render with Python list/str repr. -/
def Val.toStr : Val → String
  | .s x => x
  | .l xs =>
      "[" ++ String.mk (joinWith (", ").data (xs.map (fun x => ("'" ++ x ++ "'").data)))
        ++ "]"

/-- A value usable where Python requires a `str` (attribute access such as
`.split`): a list raises (`none` models `AttributeError`/`TypeError`). -/
def Val.asStr? : Val → Option String
  | .s x => some x
  | .l _ => none

/-- Python iteration over a dict value: a list yields its elements, a string
yields its characters as one-character strings. -/
def Val.iter : Val → List String
  | .s x => x.data.map (fun c => String.mk [c])
  | .l xs => xs

/-- Python whitespace for `str.strip()` / `int()` (ASCII fragment). -/
def isPySpace (c : Char) : Bool :=
  c == ' ' || c == '\t' || c == '\n' || c == '\r' || c == '\x0b' || c == '\x0c'

/-- Python `str.strip()` with no arguments. -/
def pyStrip (s : String) : String :=
  String.mk (((s.data.dropWhile isPySpace).reverse.dropWhile isPySpace).reverse)

/-- Python `str.lower()` (ASCII fragment, which is all the pipeline needs). -/
def pyLower (s : String) : String := String.mk (s.data.map Char.toLower)

/-- Digit run of a Python integer literal after the first digit; a single
underscore is permitted between digits. -/
def pyDigitsCore : Nat → List Char → Option Nat
  | acc, [] => some acc
  | acc, '_' :: c :: rest =>
      if c.isDigit then pyDigitsCore (acc * 10 + (c.toNat - '0'.toNat)) rest else none
  | _, ['_'] => none
  | acc, c :: rest =>
      if c.isDigit then pyDigitsCore (acc * 10 + (c.toNat - '0'.toNat)) rest else none

/-- Nonempty digit run (first char must be a digit). -/
def pyDigits : List Char → Option Nat
  | [] => none
  | c :: rest =>
      if c.isDigit then pyDigitsCore (c.toNat - '0'.toNat) rest else none

/-- Python `int(s)`: optional surrounding whitespace, optional sign, digits.
`none` models a raised `ValueError`. -/
def pyIntChars? (s : List Char) : Option Int :=
  let cs := ((s.dropWhile isPySpace).reverse.dropWhile isPySpace).reverse
  match cs with
  | '+' :: rest => (pyDigits rest).map (fun n => (n : Int))
  | '-' :: rest => (pyDigits rest).map (fun n => -(n : Int))
  | rest => (pyDigits rest).map (fun n => (n : Int))

/-- `datetime.datetime` restricted to the fields the pipeline uses. -/
structure PyDateTime where
  year : Nat
  month : Nat
  day : Nat
  hour : Nat := 0
  minute : Nat := 0
  second : Nat := 0
deriving DecidableEq, Repr

/-- `datetime.datetime(1970, 1, 1)`, the epoch placeholder. -/
def epochDT : PyDateTime := { year := 1970, month := 1, day := 1 }

/-- Length of a month exactly as CPython validates `day`. -/
def daysInMonth (y m : Nat) : Nat :=
  if m = 2 then
    if y % 4 = 0 && (y % 100 != 0 || y % 400 = 0) then 29 else 28
  else if m = 4 || m = 6 || m = 9 || m = 11 then 30
  else 31

/-- The CPython `datetime.datetime` constructor: validates every component
and raises `ValueError` (`none`) when any is out of range. -/
def mkDatetime? (y mo d h mi s : Int) : Option PyDateTime :=
  if 1 ≤ y && y ≤ 9999 && 1 ≤ mo && mo ≤ 12 && 1 ≤ d
      && d ≤ (daysInMonth y.toNat mo.toNat : Int)
      && 0 ≤ h && h ≤ 23 && 0 ≤ mi && mi ≤ 59 && 0 ≤ s && s ≤ 59 then
    some { year := y.toNat, month := mo.toNat, day := d.toNat,
           hour := h.toNat, minute := mi.toNat, second := s.toNat }
  else none

/-- `date_str.rstrip("Z")`. -/
def rstripZ (s : List Char) : List Char :=
  (s.reverse.dropWhile (fun c => c == 'Z')).reverse

/-- `year, month, day = map(int, part.split("-"))`: the triple unpack raises
(`none`) unless the split yields exactly three parseable fields. -/
def splitYMD? (part : List Char) : Option (Int × Int × Int) :=
  match (splitOnChar '-' part).map pyIntChars? with
  | [some a, some b, some c] => some (a, b, c)
  | _ => none

/-- The time-of-day parse of `parse_date`: `hour`/`minute` from the first two
`":"` fields (raising `IndexError` when absent), seconds from the third field
before any `"."`, defaulting to `0`. -/
def parseTime? (time_part : List Char) : Option (Int × Int × Int) := do
  let time_parts := splitOnChar ':' time_part
  let hs ← time_parts[0]?
  let ms ← time_parts[1]?
  let h ← pyIntChars? hs
  let mi ← pyIntChars? ms
  let s ← (if htp : 2 < time_parts.length then
      pyIntChars? ((splitOnChar '.' (time_parts.get ⟨2, htp⟩)).headD [])
    else some 0)
  some (h, mi, s)

/-- The `"T" in date_clean` branch of `parse_date`: split date and time at
the first `"T"` and build the datetime. -/
def parseWithT (date_clean : List Char) : Option PyDateTime :=
  match splitOnChar 'T' date_clean with
  | date_part :: time_rest => do
      let (y, mo, d) ← splitYMD? date_part
      let (h, mi, s) ← parseTime? (joinWith ['T'] time_rest)
      mkDatetime? y mo d h mi s
  | [] => none

/-- The date-only branch of `parse_date`. -/
def parseDateOnly (date_clean : List Char) : Option PyDateTime :=
  match splitYMD? date_clean with
  | some (y, mo, d) => mkDatetime? y mo d 0 0 0
  | none => none

/-- The happy path of the nested `parse_date` helper of `generate_table`
(src/utils.py): `none` models any of the exceptions its `try` block catches
(`ValueError` from `int`/unpacking/`datetime`, `IndexError` on the time
parts). -/
def parseDateCore (date_str : String) : Option PyDateTime :=
  let date_clean := rstripZ date_str.data
  if date_clean.contains 'T' then parseWithT date_clean
  else parseDateOnly date_clean

/-- The nested `parse_date` helper of `generate_table`: total, falling back
to the epoch on the empty string and whenever parsing raises. -/
def parse_date (date_str : String) : PyDateTime :=
  if date_str = "" then epochDT
  else (parseDateCore date_str).getD epochDT

/-- A structurally valid `datetime.datetime` value: exactly the component
ranges the CPython constructor enforces. -/
def ValidDT (d : PyDateTime) : Prop :=
  1 ≤ d.year ∧ d.year ≤ 9999 ∧ 1 ≤ d.month ∧ d.month ≤ 12 ∧
    1 ≤ d.day ∧ d.day ≤ daysInMonth d.year d.month ∧
    d.hour ≤ 23 ∧ d.minute ≤ 59 ∧ d.second ≤ 59

instance (d : PyDateTime) : Decidable (ValidDT d) := by
  unfold ValidDT; infer_instance

theorem mkDatetime?_valid {y mo d h mi s : Int} {dt : PyDateTime}
    (h' : mkDatetime? y mo d h mi s = some dt) : ValidDT dt := by
  unfold mkDatetime? at h'
  split at h'
  next hcond =>
    simp only [Bool.and_eq_true, decide_eq_true_eq] at hcond
    cases h'
    unfold ValidDT
    dsimp only
    omega
  next => exact absurd h' (by simp)

theorem epochDT_valid : ValidDT epochDT := by decide

theorem parseWithT_valid {s : List Char} {dt : PyDateTime}
    (h : parseWithT s = some dt) : ValidDT dt := by
  unfold parseWithT at h
  split at h
  next =>
    simp only [Option.bind_eq_bind, Option.bind_eq_some] at h
    obtain ⟨⟨y, mo, d⟩, _, ⟨hh, mi2, s2⟩, _, hmk⟩ := h
    exact mkDatetime?_valid hmk
  next => exact absurd h (by simp)

theorem parseDateOnly_valid {s : List Char} {dt : PyDateTime}
    (h : parseDateOnly s = some dt) : ValidDT dt := by
  unfold parseDateOnly at h
  split at h
  next => exact mkDatetime?_valid h
  next => exact absurd h (by simp)

theorem parseDateCore_valid {s : String} {dt : PyDateTime}
    (h : parseDateCore s = some dt) : ValidDT dt := by
  unfold parseDateCore at h
  dsimp only at h
  split at h
  · exact parseWithT_valid h
  · exact parseDateOnly_valid h

theorem parse_date_valid (s : String) : ValidDT (parse_date s) := by
  unfold parse_date
  split
  · exact epochDT_valid
  · cases hc : parseDateCore s with
    | none => simpa [hc] using epochDT_valid
    | some dt => simpa [hc] using parseDateCore_valid hc

/-! ### The sort used by `generate_table` -/

/-- Strict lexicographic order on datetimes, component by component: exactly
how Python compares two `datetime.datetime` values. -/
def dtLexLt (a b : PyDateTime) : Prop :=
  a.year < b.year ∨ (a.year = b.year ∧
    (a.month < b.month ∨ (a.month = b.month ∧
      (a.day < b.day ∨ (a.day = b.day ∧
        (a.hour < b.hour ∨ (a.hour = b.hour ∧
          (a.minute < b.minute ∨ (a.minute = b.minute ∧
            a.second < b.second)))))))))

/-- Mixed-radix encoding of a datetime; on valid datetimes it is order
isomorphic to the lexicographic component order. -/
def encodeDT (d : PyDateTime) : Nat :=
  ((((d.year * 16 + d.month) * 32 + d.day) * 32 + d.hour) * 64 + d.minute) * 64 + d.second

theorem daysInMonth_le (y m : Nat) : daysInMonth y m ≤ 31 := by
  unfold daysInMonth
  split
  · split <;> omega
  · split <;> omega

theorem encodeDT_lt_iff {a b : PyDateTime} (ha : ValidDT a) (hb : ValidDT b) :
    encodeDT a < encodeDT b ↔ dtLexLt a b := by
  unfold ValidDT at ha hb
  have h1 := daysInMonth_le a.year a.month
  have h2 := daysInMonth_le b.year b.month
  unfold encodeDT dtLexLt
  omega

theorem encodeDT_eq_iff {a b : PyDateTime} (ha : ValidDT a) (hb : ValidDT b) :
    encodeDT a = encodeDT b ↔ a = b := by
  unfold ValidDT at ha hb
  have h1 := daysInMonth_le a.year a.month
  have h2 := daysInMonth_le b.year b.month
  constructor
  · intro h
    cases a; cases b
    simp only [PyDateTime.mk.injEq]
    unfold encodeDT at h
    dsimp only at *
    omega
  · intro h; rw [h]

/-- The date component of the sort key: `parse_date(p.get("Date", ...))`.
A non-string `Date` value raises `AttributeError` at `rstrip`, which
`parse_date` itself catches, returning the epoch. -/
def sortDateVal (v : Val) : PyDateTime :=
  match v with
  | .s x => parse_date x
  | .l _ => epochDT

/-- The parsed date used to order a paper. -/
def keyDT (p : PDict) : PyDateTime :=
  sortDateVal (dictGetD p "Date" (.s "1970-01-01T00:00:00Z"))

/-- The title component of the sort key: `p.get("Title", "").lower()` as its
code-point sequence (Python compares strings by code points).  `none` models
the uncaught `AttributeError` when `Title` is not a string. -/
def keyTitle? (p : PDict) : Option (List Char) :=
  ((dictGetD p "Title" (.s "")).asStr?).map (fun t => (pyLower t).data)

/-- The full sort key `(parse_date(...), title.lower())` of a paper, with the
date encoded; `none` models a raised exception while computing the key. -/
def sortKey? (p : PDict) : Option (Nat × List Char) :=
  (keyTitle? p).map (fun t => (encodeDT (keyDT p), t))

/-- `a` precedes `b` under `sorted(..., key=..., reverse=True)`: its key is
lexicographically greater or equal (ties keep the original order, which the
stable insertion sort below preserves just as CPython timsort does). -/
def paperDescRel (a b : PDict) : Prop :=
  ((sortKey? b).getD (0, [])).1 < ((sortKey? a).getD (0, [])).1 ∨
    (((sortKey? b).getD (0, [])).1 = ((sortKey? a).getD (0, [])).1 ∧
      ((sortKey? b).getD (0, [])).2 ≤ ((sortKey? a).getD (0, [])).2)

instance : DecidableRel paperDescRel := fun a b => by
  unfold paperDescRel; infer_instance

instance : IsTotal PDict paperDescRel :=
  ⟨fun a b => by
    unfold paperDescRel
    rcases Nat.lt_trichotomy ((sortKey? b).getD (0, [])).1 ((sortKey? a).getD (0, [])).1
      with h | h | h
    · exact Or.inl (Or.inl h)
    · rcases le_total ((sortKey? b).getD (0, [])).2 ((sortKey? a).getD (0, [])).2 with ht | ht
      · exact Or.inl (Or.inr ⟨h, ht⟩)
      · exact Or.inr (Or.inr ⟨h.symm, ht⟩)
    · exact Or.inr (Or.inl h)⟩

instance : IsTrans PDict paperDescRel :=
  ⟨fun a b c hab hbc => by
    unfold paperDescRel at *
    rcases hab with h1 | ⟨h1, t1⟩ <;> rcases hbc with h2 | ⟨h2, t2⟩
    · exact Or.inl (h2.trans h1)
    · exact Or.inl (h2 ▸ h1)
    · exact Or.inl (h1 ▸ h2)
    · exact Or.inr ⟨h2.trans h1, t2.trans t1⟩⟩

/-- `sorted(papers, key=lambda p: (parse_date(...), title.lower()),
reverse=True)`: a stable descending sort. -/
def sortPapers (papers : List PDict) : List PDict :=
  List.insertionSort paperDescRel papers

/-! ### Row formatting of `generate_table` -/

/-- `"**" + "[{0}]({1})".format(paper["Title"], paper["Link"]) + "**"`. -/
def fmtTitleCell (tv lv : Val) : String :=
  "**" ++ "[" ++ tv.toStr ++ "](" ++ lv.toStr ++ ")" ++ "**"

/-- The collapsible Abstract disclosure cell. -/
def abstractCell (v : Val) : String :=
  "<details><summary>Show</summary><p>" ++ v.toStr ++ "</p></details>"

/-- `paper["Authors"][0] + " et al."`: `none` models the `IndexError` on an
empty sequence (indexing a string yields its first character). -/
def authorsCell? (v : Val) : Option String :=
  match v with
  | .l (x :: _) => some (x ++ " et al.")
  | .l [] => none
  | .s x =>
      match x.data with
      | c :: _ => some (String.mk [c] ++ " et al.")
      | [] => none

/-- `", ".join(paper["Tags"])` (joining a string joins its characters). -/
def joinTags (v : Val) : String :=
  match v with
  | .l xs => String.mk (joinWith (", ").data (xs.map String.data))
  | .s x => String.mk (joinWith (", ").data (x.data.map (fun c => [c])))

/-- The Tags cell: collapsible disclosure with a 5-character teaser once the
joined string exceeds 10 characters. -/
def tagsCell (v : Val) : String :=
  let tags := joinTags v
  if tags.length > 10 then
    "<details><summary>" ++ String.mk (tags.data.take 5) ++ "...</summary><p>"
      ++ tags ++ "</p></details>"
  else tags

/-- The Comment cell: empty passes through, long comments (over 20) get a
collapsible disclosure with a 5-character teaser. -/
def commentCell (v : Val) : Val :=
  match v with
  | .s x =>
      if x = "" then .s ""
      else if x.length > 20 then
        .s ("<details><summary>" ++ String.mk (x.data.take 5) ++ "...</summary><p>"
          ++ x ++ "</p></details>")
      else .s x
  | .l xs =>
      if xs.length > 20 then
        .s ("<details><summary>" ++ (Val.l (xs.take 5)).toStr ++ "...</summary><p>"
          ++ (Val.l xs).toStr ++ "</p></details>")
      else .l xs

/-- One iteration of the key loop in `generate_table`: fixed/ignored keys are
skipped, the known field names are formatted, anything else is silently not
added to the row; `none` models a raised exception (row dropped). -/
def formatKey (ignore_keys : List String) (paper : PDict) (key : String) :
    Option (List (String × Val)) :=
  if key ∈ ["Title", "Link", "Date"] ∨ key ∈ ignore_keys then some []
  else if key = "Abstract" then
    (dictGet? paper key).map (fun v => [(key, Val.s (abstractCell v))])
  else if key = "Authors" then
    (dictGet? paper key).bind (fun v => (authorsCell? v).map (fun c => [(key, Val.s c)]))
  else if key = "Tags" then
    (dictGet? paper key).map (fun v => [(key, Val.s (tagsCell v))])
  else if key = "Comment" then
    (dictGet? paper key).map (fun v => [(key, commentCell v)])
  else some []

/-- Formatting of a single row of `generate_table`: the Title/Link markdown
link, the truncated Date, then the remaining keys in the order of the first
paper's keys.  `none` models any exception caught by the per-row `try`
(missing key, empty author list, non-string date), which drops the row. -/
def formatPaper (keys ignore_keys : List String) (paper : PDict) :
    Option (List (String × Val)) := do
  let tv ← dictGet? paper "Title"
  let lv ← dictGet? paper "Link"
  let dv ← dictGet? paper "Date"
  let ds ← dv.asStr?
  let cells ← mapMOpt (formatKey ignore_keys paper) keys
  some ([("Title", Val.s (fmtTitleCell tv lv)),
         ("Date", Val.s (String.mk ((splitOnChar 'T' ds.data).headD [])))] ++ cells.flatten)

/-- The formatted papers of `generate_table` before serialization: each row
is an ordered dict of cells, rows that raise are dropped. -/
def formattedPapersOf (papers : List PDict) (ignore_keys : List String) :
    List (List (String × Val)) :=
  let sorted_papers := sortPapers papers
  sorted_papers.filterMap
    (fun p => formatPaper (dictKeys (sorted_papers.headD [])) ignore_keys p)

/-- The column names of the rendered table: the keys of the first formatted
row (`formatted_papers[0].keys()`). -/
def tableColumns (papers : List PDict) (ignore_keys : List String) : List String :=
  ((formattedPapersOf papers ignore_keys).headD []).map (fun kv => kv.1)

/-- The header and separator rows of the table. -/
def tableHeader (columns : List String) : String :=
  "| " ++ String.mk (joinWith (" | ").data (columns.map (fun c => ("**" ++ c ++ "**").data)))
    ++ " |" ++ "\n"
    ++ "| " ++ String.mk (joinWith (" | ").data (columns.map (fun _ => ("---").data))) ++ " |"

/-- `generate_table` (src/utils.py): `some ""` on an empty input or when
every row fails to format; `none` models an uncaught exception (a sort key
raising, or a non-string cell reaching `" | ".join`). -/
def generate_table (papers : List PDict) (ignore_keys : List String := []) :
    Option String :=
  if papers = [] then some ""
  else if ¬ papers.all (fun p => (sortKey? p).isSome) then none
  else
    let formatted_papers := formattedPapersOf papers ignore_keys
    if formatted_papers = [] then some ""
    else do
      let header := tableHeader (tableColumns papers ignore_keys)
      let rows ← mapMOpt (fun fp => mapMOpt (fun kv => kv.2.asStr?) fp) formatted_papers
      let body := rows.foldl
        (fun acc vals => acc ++ "\n| "
          ++ String.mk (joinWith (" | ").data (vals.map String.data)) ++ " |") ""
      some (header ++ body)

/-! ### Topic filter (`filter_tags`) -/

/-- The inner loop of `filter_tags`: scan the tags and stop (`break`) at the
first whose component before the first `"."` lies in `target_fileds`. -/
def hasMatchingTag (target_fileds : List String) : List String → Bool
  | [] => false
  | tag :: rest =>
      if target_fileds.contains (String.mk ((splitOnChar '.' tag.data).headD [])) then true
      else hasMatchingTag target_fileds rest

/-- `filter_tags` (src/utils.py): keep the papers for which the inner loop
appended (iterating `paper.get("Tags", [])`). -/
def filter_tags (papers : List PDict)
    (target_fileds : List String := ["cs", "stat"]) : List PDict :=
  papers.filter
    (fun paper => hasMatchingTag target_fileds (Val.iter (dictGetD paper "Tags" (.l []))))

/-! ### Column projections and adapter pipelines

The network fetch of each adapter is an explicit parameter (`fetched`): the
pipeline functions below are the pure remainder of the corresponding Python
functions applied to whatever the request helper returned. -/

/-- `{column_name: paper[column_name] for column_name in column_names}` —
the arXiv-pipeline projection; direct indexing, so a missing key raises
`KeyError` (`none`). -/
def selectColumnsIndex (column_names : List String) (paper : PDict) : Option PDict :=
  mapMOpt
    (fun column_name => (dictGet? paper column_name).map (fun v => (column_name, v)))
    column_names

/-- `{column_name: paper.get(column_name, "") for column_name in column_names}`
— the projection used by the CrossRef/OpenAlex/Semantic Scholar/ACM/IEEE/DVCon
pipelines; total, substituting `""` for a missing key. -/
def selectColumnsGet (column_names : List String) (paper : PDict) : PDict :=
  column_names.map
    (fun column_name => (column_name, dictGetD paper column_name (.s "")))

/-- `get_daily_papers_by_keyword` (arXiv pipeline) after the network fetch:
tag filtering then column selection by direct indexing. -/
def get_daily_papers_by_keyword (fetched : List PDict) (column_names : List String) :
    Option (List PDict) :=
  mapMOpt (selectColumnsIndex column_names) (filter_tags fetched)

/-- Python `needle in hay` on strings (substring containment). -/
def subOf (needle : List Char) : List Char → Bool
  | [] => needle.isPrefixOf ([] : List Char)
  | c :: rest => needle.isPrefixOf (c :: rest) || subOf needle rest

/-- `_is_verification_flavoured_query`. -/
def isVerificationFlavouredQuery (keyword : String) : Bool :=
  let lowered := pyLower keyword
  ["verification", "uvm", "uvm-", "dvcon"].any
    (fun token => subOf token.data lowered.data)

/-- The marker vocabulary of `_is_digital_verification_paper`. -/
def verificationMarkers : List String :=
  ["verification", "uvm", "systemverilog", "rtl", "testbench", "formal",
   "assertion", "coverage", "dvcon", "soc", "fpga", "asic", "hdl"]

/-- `_is_digital_verification_paper` on string-valued fields. -/
def isDigitalVerificationPaper (paper : PDict) : Bool :=
  let haystack := pyLower (String.mk (joinWith [' ']
    [(dictGetD paper "Title" (.s "")).toStr.data,
     (dictGetD paper "Abstract" (.s "")).toStr.data,
     (dictGetD paper "Comment" (.s "")).toStr.data]))
  if pyStrip haystack = "" then false
  else verificationMarkers.any (fun marker => subOf marker.data haystack.data)

/-- `get_daily_papers_by_keyword_from_crossref` after the network fetch:
optional verification post-filter, then column selection with the
empty-string fallback. -/
def get_daily_papers_by_keyword_from_crossref (fetched : List PDict)
    (keyword : String) (column_names : List String) : List PDict :=
  let papers :=
    if isVerificationFlavouredQuery keyword then
      fetched.filter isDigitalVerificationPaper
    else fetched
  papers.map (selectColumnsGet column_names)

/-! ### Retry wrappers

A wrapper call is parametrised by the outcome of each attempt of the wrapped
adapter (`fetch`), abstracting the network.  The result pairs the Python
return value (`none` models returning `None`) with the number of attempts
performed. -/

/-- Outcome of one adapter attempt: a returned list, a raised
`urllib.error.HTTPError` with a status code, or any other exception. -/
inductive FetchOutcome where
  | ok (papers : List PDict)
  | errHttp (code : Nat)
  | errOther
deriving Repr

/-- The shared retry loop shape: return on a non-empty result; when
`check4xx` is set, return `[]` at once on an HTTP 4xx error; otherwise keep
attempting; on exhaustion return `exhaust`. -/
def retryAux (fetch : Nat → FetchOutcome) (check4xx : Bool)
    (exhaust : Option (List PDict)) (attempt : Nat) :
    Nat → Option (List PDict) × Nat
  | 0 => (exhaust, attempt)
  | remaining + 1 =>
      match fetch attempt with
      | .ok papers =>
          if 0 < papers.length then (some papers, attempt + 1)
          else retryAux fetch check4xx exhaust (attempt + 1) remaining
      | .errHttp code =>
          if check4xx && (decide (400 ≤ code) && decide (code < 500)) then
            (some [], attempt + 1)
          else retryAux fetch check4xx exhaust (attempt + 1) remaining
      | .errOther => retryAux fetch check4xx exhaust (attempt + 1) remaining

/-- `get_daily_papers_by_keyword_with_retries` (arXiv): no 4xx short-circuit,
returns `[]` on exhaustion, default budget 6. -/
def get_daily_papers_by_keyword_with_retries (fetch : Nat → FetchOutcome)
    (retries : Nat := 6) : Option (List PDict) × Nat :=
  retryAux fetch false (some []) 0 retries

/-- `get_daily_papers_by_keyword_with_retries_crossref`: 4xx short-circuit,
`[]` on exhaustion, default budget 3. -/
def get_daily_papers_by_keyword_with_retries_crossref (fetch : Nat → FetchOutcome)
    (retries : Nat := 3) : Option (List PDict) × Nat :=
  retryAux fetch true (some []) 0 retries

/-- `get_daily_papers_by_keyword_with_retries_openalex`. -/
def get_daily_papers_by_keyword_with_retries_openalex (fetch : Nat → FetchOutcome)
    (retries : Nat := 3) : Option (List PDict) × Nat :=
  retryAux fetch true (some []) 0 retries

/-- `get_daily_papers_by_keyword_with_retries_semantic_scholar`. -/
def get_daily_papers_by_keyword_with_retries_semantic_scholar
    (fetch : Nat → FetchOutcome) (retries : Nat := 3) : Option (List PDict) × Nat :=
  retryAux fetch true (some []) 0 retries

/-- `get_daily_papers_by_keyword_with_retries_acm`. -/
def get_daily_papers_by_keyword_with_retries_acm (fetch : Nat → FetchOutcome)
    (retries : Nat := 3) : Option (List PDict) × Nat :=
  retryAux fetch true (some []) 0 retries

/-- `get_daily_papers_by_keyword_with_retries_dvcon`: its `except` clause has
no `HTTPError` inspection, so every exception is retried. -/
def get_daily_papers_by_keyword_with_retries_dvcon (fetch : Nat → FetchOutcome)
    (retries : Nat := 3) : Option (List PDict) × Nat :=
  retryAux fetch false (some []) 0 retries

/-- `get_daily_papers_by_keyword_with_retries_ieee`: 4xx short-circuit
returning `[]`, but `return None` on exhaustion. -/
def get_daily_papers_by_keyword_with_retries_ieee (fetch : Nat → FetchOutcome)
    (retries : Nat := 3) : Option (List PDict) × Nat :=
  retryAux fetch true none 0 retries

/-- The orchestrator's check after the arXiv wrapper (src/main.py):
`if papers is None: raise ...` — the run aborts (and backups are restored by
the top-level handler) exactly when the wrapper returned `None`. -/
def arxivRunAborts (result : Option (List PDict)) : Bool :=
  result.isNone

/-- An attempt outcome on which the retry loop keeps going rather than
returning: an empty list, or an exception that is not short-circuited. -/
def attemptRetries (check4xx : Bool) : FetchOutcome → Bool
  | .ok papers => papers.length = 0
  | .errHttp code => !(check4xx && (decide (400 ≤ code) && decide (code < 500)))
  | .errOther => true

/-! ### DVCon year inference and abstract backfill -/

/-- A match of the regex `(19|20)\d{2}` at the head of the character list. -/
def yearAt? : List Char → Option Nat
  | c0 :: c1 :: c2 :: c3 :: _ =>
      if ((c0 == '1' && c1 == '9') || (c0 == '2' && c1 == '0'))
          && c2.isDigit && c3.isDigit then
        some (((c0.toNat - '0'.toNat) * 10 + (c1.toNat - '0'.toNat)) * 100
          + (c2.toNat - '0'.toNat) * 10 + (c3.toNat - '0'.toNat))
      else none
  | _ => none

/-- `re.search(r"(19|20)\d{2}", s)`: leftmost match. -/
def searchYear : List Char → Option Nat
  | [] => none
  | c :: rest =>
      match yearAt? (c :: rest) with
      | some y => some y
      | none => searchYear rest

/-- `re.finditer(r"(19|20)\d{2}", s)`: all non-overlapping matches, leftmost
first. -/
def allYears : List Char → List Nat
  | [] => []
  | c :: rest =>
      match yearAt? (c :: rest) with
      | some y => y :: allYears (rest.drop 3)
      | none => allYears rest
termination_by l => l.length
decreasing_by
  · simp only [List.length_cons, List.length_drop]; omega
  · simp only [List.length_cons]; omega

/-- Zero-padded `f"{year:04d}"`. -/
def pad4 (y : Nat) : String :=
  let s := toString y
  String.mk (List.replicate (4 - s.length) '0') ++ s

/-- `[^0-9]{0,40}` followed by the literal `target`: try the literal at each
gap length up to `gap`, consuming only non-digit characters. -/
def gapThenLit (target : List Char) : Nat → List Char → Bool
  | gap, cs =>
      if target.isPrefixOf cs then true
      else
        match gap, cs with
        | 0, _ => false
        | _ + 1, [] => false
        | g + 1, c :: rest => !c.isDigit && gapThenLit target g rest

/-- One alternative of the proximity regex
`(dvcon[^0-9]{0,40}Y)|(Y[^0-9]{0,40}dvcon)` anchored at the head. -/
def dvconNearAt (ystr : List Char) (cs : List Char) : Bool :=
  ("dvcon".data.isPrefixOf cs && gapThenLit ystr 40 (cs.drop 5))
    || (ystr.isPrefixOf cs && gapThenLit "dvcon".data 40 (cs.drop ystr.length))

/-- `re.search` of the proximity regex over the lowered first-page text. -/
def searchDvconNear (ystr : List Char) : List Char → Bool
  | [] => dvconNearAt ystr []
  | c :: rest => dvconNearAt ystr (c :: rest) || searchDvconNear ystr rest

/-- The year-inference heuristic of
`extract_abstracts_from_downloaded_dvcon_pdfs`: first a year embedded in the
PDF filename stem, else (when first-page text is available and non-empty) a
plausible year from the text, preferring years adjacent to "DVCon", else the
maximum plausible year.  `pageText?` is the `extract_text_with_fallback`
oracle; `none` models a raised extraction error. -/
def inferDvconYear (stem : String) (pageText? : Option String)
    (current_year : Nat) : Option Nat :=
  let fromStem :=
    match searchYear stem.data with
    | some candidate =>
        if 1990 ≤ candidate && candidate ≤ current_year + 1 then some candidate
        else none
    | none => none
  match fromStem with
  | some y => some y
  | none =>
      match pageText? with
      | none => none
      | some text =>
          if text = "" then none
          else
            let year_candidates := (allYears text.data).filter
              (fun y => 1990 ≤ y && y ≤ current_year + 1)
            if year_candidates.isEmpty then none
            else
              let lowered_text := pyLower text
              match (List.insertionSort (fun a b : Nat => b ≤ a) year_candidates).find?
                  (fun y => searchDvconNear (toString y).data lowered_text.data) with
              | some y => some y
              | none => year_candidates.max?

/-- The per-entry effect oracle of the DVCon abstract/year extraction: what
the filesystem/PDF side yielded for this entry.  `matchedStem` is the stem of
the matched PDF (`none`: no match, entry untouched); `abstract` the result of
`extract_abstract_from_pdf`; `pageText` the first-page text used as the
fallback year source. -/
structure DvconOracle where
  matchedStem : Option String
  abstract : Option String
  pageText : Option String

/-- `if abstract: entry["Abstract"] = abstract` — the conditional abstract
write of `extract_abstracts_from_downloaded_dvcon_pdfs`. -/
def dvconWriteAbstract (abstract? : Option String) (entry : PDict) : PDict :=
  match abstract? with
  | some a => if a ≠ "" then dictSet entry "Abstract" (.s a) else entry
  | none => entry

/-- The per-entry body of `extract_abstracts_from_downloaded_dvcon_pdfs`:
write the abstract when one was extracted, then infer a year and rewrite
`Date` only over the epoch placeholder or an empty/missing date
(`str.startswith` modelled on the character lists). -/
def dvconProcessEntry (o : DvconOracle) (current_year : Nat) (entry : PDict) :
    PDict :=
  match o.matchedStem with
  | none => entry
  | some stem =>
      let entry1 := dvconWriteAbstract o.abstract entry
      let inferred := inferDvconYear stem o.pageText current_year
      match (dictGetD entry1 "Date" (.s "")).asStr? with
      | none => entry1
      | some existing_date =>
          let is_placeholder :=
            ("1970-01-01".data.isPrefixOf existing_date.data) || existing_date == ""
          match inferred with
          | some y =>
              if is_placeholder then
                dictSet entry1 "Date" (.s (pad4 y ++ "-01-01T00:00:00Z"))
              else entry1
          | none => entry1

/-- `extract_abstracts_from_downloaded_dvcon_pdfs` over its pure per-entry
logic, the PDF lookup abstracted into a per-entry oracle. -/
def extract_abstracts_from_downloaded_dvcon_pdfs (oracle : PDict → DvconOracle)
    (current_year : Nat) (entries : List PDict) : List PDict :=
  entries.map (fun entry => dvconProcessEntry (oracle entry) current_year entry)

/-! ### `extract_abstract_from_text` -/

/-- A regex word character (`\w`), ASCII fragment. -/
def isWordChar (c : Char) : Bool := c.isAlphanum || c == '_'

/-- A `\b` word boundary holds before the scan position, `prev` being the
preceding character (`none` at the start of the searched string). -/
def boundaryBefore : Option Char → Bool
  | none => true
  | some c => !isWordChar c

/-- A `\b` word boundary holds at the head of `cs` (looking rightwards). -/
def boundaryAfterAt (cs : List Char) : Bool :=
  match cs with
  | [] => true
  | c :: _ => !isWordChar c

/-- `re.search` position scan: index of the leftmost position whose suffix
(and preceding character) satisfies the pattern predicate. -/
def scanFirstAux (p : List Char → Option Char → Bool) :
    List Char → Option Char → Option Nat
  | [], prev => if p [] prev then some 0 else none
  | c :: rest, prev =>
      if p (c :: rest) prev then some 0
      else (scanFirstAux p rest (some c)).map (fun i => i + 1)

/-- The literal `lit` followed by a `\b`. -/
def litThenBoundary (lit : List Char) (cs : List Char) : Bool :=
  lit.isPrefixOf cs && boundaryAfterAt (cs.drop lit.length)

/-- A whitespace run of at least `minWs` characters (`\s*`/`\s+`) followed by
the literal `lit` and a `\b`; since the literals start with a non-space
character the greedy run is exact. -/
def wsThenLit (lit : List Char) (minWs : Nat) (cs : List Char) : Bool :=
  let n := (cs.takeWhile isPySpace).length
  decide (minWs ≤ n) && litThenBoundary lit (cs.drop n)

/-- `\babstract\b` anchored at the head. -/
def pAbstract (cs : List Char) (prev : Option Char) : Bool :=
  boundaryBefore prev && litThenBoundary "abstract".data cs

/-- `\b1\.\s*introduction\b` anchored at the head. -/
def pOneDotIntro (cs : List Char) (prev : Option Char) : Bool :=
  boundaryBefore prev && "1.".data.isPrefixOf cs
    && wsThenLit "introduction".data 0 (cs.drop 2)

/-- `\b1\s+introduction\b` anchored at the head. -/
def pOneSpIntro (cs : List Char) (prev : Option Char) : Bool :=
  boundaryBefore prev && "1".data.isPrefixOf cs
    && wsThenLit "introduction".data 1 (cs.drop 1)

/-- `\bintroduction\b` anchored at the head. -/
def pIntro (cs : List Char) (prev : Option Char) : Bool :=
  boundaryBefore prev && litThenBoundary "introduction".data cs

/-- `\bkeywords\b` anchored at the head. -/
def pKeywords (cs : List Char) (prev : Option Char) : Bool :=
  boundaryBefore prev && litThenBoundary "keywords".data cs

/-- `\bindex\s+terms\b` anchored at the head. -/
def pIndexTerms (cs : List Char) (prev : Option Char) : Bool :=
  boundaryBefore prev && "index".data.isPrefixOf cs
    && wsThenLit "terms".data 1 (cs.drop 5)

/-- `re.search(r"\babstract\b", lowered).end()`: position just after the
first occurrence of the word "abstract", `none` when there is none. -/
def findAbstractMarker (lowered : String) : Option Nat :=
  (scanFirstAux pAbstract lowered.data none).map (fun i => i + 8)

/-- The stop positions of the five stop-heading patterns searched in the
slice `lowered[start:]` (positions relative to the slice). -/
def stopPositions (tail : List Char) : List Nat :=
  [scanFirstAux pOneDotIntro tail none,
   scanFirstAux pOneSpIntro tail none,
   scanFirstAux pIntro tail none,
   scanFirstAux pKeywords tail none,
   scanFirstAux pIndexTerms tail none].filterMap id

/-- `stop`: the nearest stop heading after `start`, else the text length. -/
def stopPos (text : String) (start : Nat) : Nat :=
  match (stopPositions ((pyLower text).data.drop start)).min? with
  | some m => start + m
  | none => text.length

/-- The line-boundary characters of Python `str.splitlines()`. -/
def isPyLineBreak (c : Char) : Bool :=
  c == '\n' || c == '\r' || c == '\x0b' || c == '\x0c' || c == '\x1c'
    || c == '\x1d' || c == '\x1e' || c == '\x85' || c == '\u2028' || c == '\u2029'

/-- Python `str.splitlines()` (reversed-accumulator worker); `afterCR` marks
that the previous character was a `"\r"` boundary, so that an immediately
following `"\n"` is absorbed into the same `"\r\n"` boundary. -/
def splitlinesAux (acc : List Char) (afterCR : Bool) : List Char → List (List Char)
  | [] => if acc.isEmpty then [] else [acc.reverse]
  | c :: rest =>
      if afterCR && c = '\n' then splitlinesAux acc false rest
      else if c = '\r' then acc.reverse :: splitlinesAux [] true rest
      else if isPyLineBreak c then acc.reverse :: splitlinesAux [] false rest
      else splitlinesAux (c :: acc) false rest

/-- `" ".join(lines)`, written recursively for easy induction. -/
def joinSpace : List (List Char) → List Char
  | [] => []
  | [x] => x
  | x :: y :: rest => x ++ ' ' :: joinSpace (y :: rest)

/-- The whitespace collapse applied to the captured span: strip, split into
lines, strip each, drop empties, join with single spaces. -/
def collapseLines (s : String) : String :=
  let abstract_raw := pyStrip s
  let lines := (splitlinesAux [] false abstract_raw.data).map (fun l => pyStrip (String.mk l))
  String.mk (joinSpace ((lines.filter (fun l => l ≠ "")).map String.data))

/-- The captured raw span `text[start:stop]` (empty when no marker). -/
def capturedSpan (text : String) : String :=
  match findAbstractMarker (pyLower text) with
  | none => ""
  | some start => String.mk ((text.data.drop start).take (stopPos text start - start))

/-- `extract_abstract_from_text` (src/utils.py). -/
def extract_abstract_from_text (text : String) : Option String :=
  if text = "" then none
  else
    match findAbstractMarker (pyLower text) with
    | none => none
    | some _ =>
        let abstract := collapseLines (capturedSpan text)
        if abstract = "" then none else some abstract

/-! ### Helper lemmas on the retry loop -/

theorem retryAux_exhaust (fetch : Nat → FetchOutcome) (check4xx : Bool)
    (exhaust : Option (List PDict)) :
    ∀ (remaining attempt : Nat),
      (∀ i, i < remaining → attemptRetries check4xx (fetch (attempt + i)) = true) →
      retryAux fetch check4xx exhaust attempt remaining = (exhaust, attempt + remaining) := by
  intro remaining
  induction remaining with
  | zero => intro attempt _; rfl
  | succ n ih =>
      intro attempt h
      have h0 := h 0 (Nat.succ_pos n)
      rw [Nat.add_zero] at h0
      have hrest : ∀ i, i < n → attemptRetries check4xx (fetch (attempt + 1 + i)) = true := by
        intro i hi
        have h' := h (i + 1) (by omega)
        have e : attempt + (i + 1) = attempt + 1 + i := by omega
        rwa [e] at h'
      have ihr := ih (attempt + 1) hrest
      unfold retryAux
      cases hf : fetch attempt with
      | ok papers =>
          rw [hf] at h0
          simp only [attemptRetries, decide_eq_true_eq] at h0
          dsimp only
          rw [if_neg (by omega : ¬ 0 < papers.length), ihr]
          refine congrArg _ ?_
          omega
      | errHttp code =>
          rw [hf] at h0
          simp only [attemptRetries, Bool.not_eq_true'] at h0
          dsimp only
          rw [if_neg (by simp [h0]), ihr]
          refine congrArg _ ?_
          omega
      | errOther =>
          dsimp only
          rw [ihr]
          refine congrArg _ ?_
          omega

theorem retryAux_first_4xx (fetch : Nat → FetchOutcome) (exhaust : Option (List PDict))
    (attempt remaining code : Nat) (hr : 0 < remaining)
    (hf : fetch attempt = FetchOutcome.errHttp code) (h4 : 400 ≤ code) (h5 : code < 500) :
    retryAux fetch true exhaust attempt remaining = (some [], attempt + 1) := by
  cases remaining with
  | zero => omega
  | succ n =>
      unfold retryAux
      rw [hf]
      dsimp only
      rw [if_pos (by simp [h4, h5])]

theorem retryAux_isSome (fetch : Nat → FetchOutcome) (check4xx : Bool) (l : List PDict) :
    ∀ (remaining attempt : Nat),
      ((retryAux fetch check4xx (some l) attempt remaining).1).isSome = true := by
  intro remaining
  induction remaining with
  | zero => intro attempt; rfl
  | succ n ih =>
      intro attempt
      unfold retryAux
      cases fetch attempt with
      | ok papers => dsimp only; split <;> simp [ih]
      | errHttp code => dsimp only; split <;> simp [ih]
      | errOther => dsimp only; simp [ih]

/-! ### C1 -/

/-- C1 counterexample: when all 6 arXiv attempts return an empty list, the
retry wrapper returns the empty list itself (after all 6 attempts), and the
orchestrator's only abort condition (`papers is None`) is false — the run
does not abort, contradicting the claim that exhaustion is fatal. -/
theorem c1_arxiv_exhaustion_not_fatal_cex :
    get_daily_papers_by_keyword_with_retries (fun _ => FetchOutcome.ok []) 6
        = (some [], 6) ∧
      arxivRunAborts
        (get_daily_papers_by_keyword_with_retries (fun _ => FetchOutcome.ok []) 6).1
        = false :=
  ⟨rfl, rfl⟩

/-- C1 (amended): when every attempt fails (empty result or exception), the
arXiv retry wrapper returns `[]` — Python `None` is never returned — so the
orchestrator's `if papers is None: raise` check never fires and the run
completes with an empty arXiv section rather than aborting. -/
theorem c1_arxiv_exhaustion_returns_empty (fetch : Nat → FetchOutcome) (retries : Nat)
    (h : ∀ i, i < retries → attemptRetries false (fetch i) = true) :
    get_daily_papers_by_keyword_with_retries fetch retries = (some [], retries) ∧
      arxivRunAborts (get_daily_papers_by_keyword_with_retries fetch retries).1 = false ∧
      (∀ (g : Nat → FetchOutcome) (r : Nat),
        ((get_daily_papers_by_keyword_with_retries g r).1).isSome = true) := by
  have he := retryAux_exhaust fetch false (some []) retries 0 (by simpa using h)
  refine ⟨by simpa [get_daily_papers_by_keyword_with_retries] using he, ?_, ?_⟩
  · rw [show get_daily_papers_by_keyword_with_retries fetch retries
        = retryAux fetch false (some []) 0 retries from rfl, he]
    rfl
  · intro g r
    exact retryAux_isSome g false [] r 0

/-- C1 witness: six attempts that all raise — the wrapper returns `[]`. -/
theorem c1_witness :
    get_daily_papers_by_keyword_with_retries (fun _ => FetchOutcome.errOther) 6
      = (some [], 6) :=
  (c1_arxiv_exhaustion_returns_empty (fun _ => FetchOutcome.errOther) 6
    (fun _ _ => rfl)).1

/-! ### C4 -/

/-- C4 counterexample: the DVCon retry wrapper has no HTTP 4xx
short-circuit — on an adapter that always raises a 404 error it still runs
all 3 attempts (not exactly one), contradicting the claim that every
non-arXiv wrapper abandons retries after one attempt on a 4xx error. -/
theorem c4_dvcon_retries_on_404_cex :
    get_daily_papers_by_keyword_with_retries_dvcon
        (fun _ => FetchOutcome.errHttp 404) 3 = (some [], 3) ∧
      (get_daily_papers_by_keyword_with_retries_dvcon
        (fun _ => FetchOutcome.errHttp 404) 3).2 ≠ 1 :=
  ⟨rfl, by decide⟩

/-- C4 (amended): the CrossRef, OpenAlex, Semantic Scholar and ACM retry
wrappers abandon all remaining retries on an HTTP 4xx client error and
return the empty sequence after exactly one attempt; the DVCon wrapper has
no such short-circuit and retries a 4xx error for the full budget; an HTTP
5xx error is attempted for the full retry budget by all five wrappers before
returning empty. -/
theorem c4_retry_wrappers_4xx_policy :
    (∀ (fetch : Nat → FetchOutcome) (retries code : Nat), 0 < retries →
        fetch 0 = FetchOutcome.errHttp code → 400 ≤ code → code < 500 →
        get_daily_papers_by_keyword_with_retries_crossref fetch retries = (some [], 1) ∧
        get_daily_papers_by_keyword_with_retries_openalex fetch retries = (some [], 1) ∧
        get_daily_papers_by_keyword_with_retries_semantic_scholar fetch retries
          = (some [], 1) ∧
        get_daily_papers_by_keyword_with_retries_acm fetch retries = (some [], 1)) ∧
    (∀ (fetch : Nat → FetchOutcome) (retries code : Nat),
        (∀ i, fetch i = FetchOutcome.errHttp code) → 400 ≤ code → code < 500 →
        get_daily_papers_by_keyword_with_retries_dvcon fetch retries
          = (some [], retries)) ∧
    (∀ (fetch : Nat → FetchOutcome) (retries code : Nat),
        (∀ i, fetch i = FetchOutcome.errHttp code) → 500 ≤ code →
        get_daily_papers_by_keyword_with_retries_crossref fetch retries
            = (some [], retries) ∧
          get_daily_papers_by_keyword_with_retries_openalex fetch retries
            = (some [], retries) ∧
          get_daily_papers_by_keyword_with_retries_semantic_scholar fetch retries
            = (some [], retries) ∧
          get_daily_papers_by_keyword_with_retries_acm fetch retries
            = (some [], retries) ∧
          get_daily_papers_by_keyword_with_retries_dvcon fetch retries
            = (some [], retries)) := by
  refine ⟨?_, ?_, ?_⟩
  · intro fetch retries code hr hf h4 h5
    have h1 := retryAux_first_4xx fetch (some []) 0 retries code hr hf h4 h5
    exact ⟨h1, h1, h1, h1⟩
  · intro fetch retries code hall h4 h5
    have h1 := retryAux_exhaust fetch false (some []) retries 0
      (fun i _ => by simp [hall, attemptRetries])
    simpa using h1
  · intro fetch retries code hall h5
    have hretr : ∀ i, i < retries → attemptRetries true (fetch (0 + i)) = true := by
      intro i _
      simp only [Nat.zero_add, hall, attemptRetries]
      simp
      omega
    have h1 := retryAux_exhaust fetch true (some []) retries 0 hretr
    have h2 := retryAux_exhaust fetch false (some []) retries 0
      (fun i _ => by simp [hall, attemptRetries])
    simp only [Nat.zero_add] at h1 h2
    exact ⟨h1, h1, h1, h1, h2⟩

/-- C4 witness: a constant 404 adapter stops the CrossRef wrapper at one
attempt but runs the DVCon wrapper for all 3; a constant 503 adapter runs
the CrossRef wrapper for all 3. -/
theorem c4_witness :
    get_daily_papers_by_keyword_with_retries_crossref
        (fun _ => FetchOutcome.errHttp 404) 3 = (some [], 1) ∧
      get_daily_papers_by_keyword_with_retries_dvcon
        (fun _ => FetchOutcome.errHttp 404) 3 = (some [], 3) ∧
      get_daily_papers_by_keyword_with_retries_crossref
        (fun _ => FetchOutcome.errHttp 503) 3 = (some [], 3) :=
  ⟨(c4_retry_wrappers_4xx_policy.1 (fun _ => FetchOutcome.errHttp 404) 3 404
      (by decide) rfl (by decide) (by decide)).1,
   c4_retry_wrappers_4xx_policy.2.1 (fun _ => FetchOutcome.errHttp 404) 3 404
      (fun _ => rfl) (by decide) (by decide),
   (c4_retry_wrappers_4xx_policy.2.2 (fun _ => FetchOutcome.errHttp 503) 3 503
      (fun _ => rfl) (by decide)).1⟩

/-! ### C6 -/

/-- C6: the IEEE retry wrapper's exhaustion path is `return None`, not the
empty list: an adapter that always raises a 500-class error makes the
wrapper return Python `None` after the full budget of 3 attempts, although
its return annotation promises a list and every sibling wrapper returns
`[]`. -/
theorem c6_ieee_exhaustion_returns_none :
    get_daily_papers_by_keyword_with_retries_ieee
        (fun _ => FetchOutcome.errHttp 500) 3 = (none, 3) ∧
      get_daily_papers_by_keyword_with_retries_ieee
        (fun _ => FetchOutcome.ok []) 3 = (none, 3) :=
  ⟨rfl, rfl⟩

/-! ### C3 -/

theorem hasMatchingTag_eq_any (ts : List String) (l : List String) :
    hasMatchingTag ts l
      = l.any (fun tag =>
          ts.contains (String.mk ((splitOnChar '.' tag.data).headD []))) := by
  induction l with
  | nil => rfl
  | cons t rest ih =>
      unfold hasMatchingTag
      rw [List.any_cons]
      split
      next h => rw [h]; rfl
      next h =>
        simp only [Bool.not_eq_true] at h
        rw [h, ih]; rfl

/-- A paper whose first tag has prefix component "math" but whose second tag
has prefix component "cs". -/
def c3paper : PDict := [("Title", Val.s "P"), ("Tags", Val.l ["math.AG", "cs.LG"])]

/-- C3 counterexample: with the default target fields, `filter_tags` keeps a
paper whose first tag prefix component ("math") is outside `{cs, stat}`,
because a later tag ("cs.LG") matches — the claim says such a paper is
dropped. -/
theorem c3_first_tag_cex :
    filter_tags [c3paper] = [c3paper] ∧
      (Val.iter (dictGetD c3paper "Tags" (Val.l []))).headD "" = "math.AG" ∧
      (["cs", "stat"] : List String).contains
        (String.mk ((splitOnChar '.' "math.AG".data).headD [])) = false := by
  decide

/-- C3 (amended): `filter_tags` keeps exactly those papers having at least
one tag whose component before the first "." lies in the target fields (the
inner loop breaks at the first matching tag, so any matching tag suffices,
not only the first). -/
theorem c3_filter_tags_keeps_any_matching (papers : List PDict)
    (target_fileds : List String) :
    filter_tags papers target_fileds = papers.filter
      (fun paper => (Val.iter (dictGetD paper "Tags" (Val.l []))).any
        (fun tag =>
          target_fileds.contains (String.mk ((splitOnChar '.' tag.data).headD [])))) := by
  unfold filter_tags
  refine List.filter_congr ?_
  intro p _
  exact hasMatchingTag_eq_any target_fileds (Val.iter (dictGetD p "Tags" (Val.l [])))

/-! ### C2 -/

theorem mapM_option_isSome {A B : Type} (f : A → Option B) (l : List A) :
    ((mapMOpt f l).isSome = true) ↔ ∀ a ∈ l, (f a).isSome = true := by
  induction l with
  | nil => simp [mapMOpt]
  | cons a rest ih =>
      rw [mapMOpt, List.forall_mem_cons]
      cases hf : f a with
      | none => simp
      | some b =>
          cases hr : mapMOpt f rest with
          | none =>
              rw [hr] at ih
              simp only [Option.isSome_none, Bool.false_eq_true, false_iff] at ih
              simp [ih]
          | some bs =>
              rw [hr] at ih
              simp only [Option.isSome_some, true_iff] at ih
              simp
              exact ih

/-- A paper that survives the tag filter but has no "Link" key. -/
def c2paper : PDict := [("Title", Val.s "T"), ("Tags", Val.l ["cs.LG"])]

/-- C2 counterexample: the arXiv pipeline projects with `paper[column_name]`
(direct indexing), so a requested column absent from a paper raises
`KeyError` and the pipeline fails rather than substituting the empty string;
the `.get`-based projection of the other pipelines substitutes `""`. -/
theorem c2_arxiv_projection_raises_cex :
    get_daily_papers_by_keyword [c2paper] ["Title", "Link"] = none ∧
      selectColumnsIndex ["Title", "Link"] c2paper = none ∧
      selectColumnsGet ["Title", "Link"] c2paper
        = [("Title", Val.s "T"), ("Link", Val.s "")] := by
  decide

/-- C2 (amended): the `.get`-based projection used by the CrossRef, OpenAlex,
Semantic Scholar, ACM, IEEE and DVCon pipelines is total, keeps one cell per
requested column and substitutes the empty string exactly for each missing
key; the arXiv projection (`get_daily_papers_by_keyword`) instead uses
direct indexing and succeeds precisely when every requested column is
present in the paper, raising `KeyError` otherwise. -/
theorem c2_projection_fallback (column_names : List String) (paper : PDict) :
    ((selectColumnsGet column_names paper).length = column_names.length ∧
      ∀ c, c ∈ column_names → dictGet? paper c = none →
        (c, Val.s "") ∈ selectColumnsGet column_names paper) ∧
    ((selectColumnsIndex column_names paper).isSome = true ↔
      ∀ c ∈ column_names, (dictGet? paper c).isSome = true) := by
  refine ⟨⟨?_, ?_⟩, ?_⟩
  · simp [selectColumnsGet]
  · intro c hc hnone
    unfold selectColumnsGet
    refine List.mem_map.mpr ⟨c, hc, ?_⟩
    simp [dictGetD, hnone]
  · unfold selectColumnsIndex
    rw [mapM_option_isSome]
    constructor
    · intro h c hc
      have h' := h c hc
      cases hcc : dictGet? paper c with
      | none => rw [hcc] at h'; simp at h'
      | some v => simp
    · intro h c hc
      have h' := h c hc
      cases hcc : dictGet? paper c with
      | none => rw [hcc] at h'; simp at h'
      | some v => simp [hcc]

/-- C2 witness: one missing column maps to the empty-string cell under the
`.get`-based projection. -/
theorem c2_witness :
    ("Link", Val.s "") ∈ selectColumnsGet ["Link"] [("Title", Val.s "x")] :=
  (c2_projection_fallback ["Link"] [("Title", Val.s "x")]).1.2 "Link"
    (by decide) (by decide)

/-! ### C10 -/

/-- C10: the `parse_date` helper is total — on every string it returns a
structurally valid datetime and never raises — and yields the epoch
`1970-01-01 00:00:00` whenever the core parse fails, in particular on the
empty string, non-numeric fields, out-of-range month/day/time components
and missing separators. -/
theorem c10_parse_date_total (s : String) :
    ValidDT (parse_date s) ∧
      (parseDateCore s = none → parse_date s = epochDT) ∧
      parse_date "" = epochDT ∧
      parse_date "not a date" = epochDT ∧
      parse_date "2024-13-01T00:00:00Z" = epochDT ∧
      parse_date "2024-02-30" = epochDT ∧
      parse_date "2024-01-01T25:00:00Z" = epochDT ∧
      parse_date "20240101" = epochDT := by
  refine ⟨parse_date_valid s, ?_, by decide, by decide, by decide, by decide,
    by decide, by decide⟩
  intro h
  unfold parse_date
  split
  · rfl
  · rw [h]; rfl

/-- C10 witness: a valid timestamp parses to a valid datetime; an
unparseable string falls back to the epoch. -/
theorem c10_witness :
    ValidDT (parse_date "2024-06-01T12:30:45Z") ∧ parse_date "garbage" = epochDT :=
  ⟨(c10_parse_date_total "2024-06-01T12:30:45Z").1,
   (c10_parse_date_total "garbage").2.1 (by decide)⟩

/-! ### C5 -/

theorem sortDateVal_valid (v : Val) : ValidDT (sortDateVal v) := by
  cases v with
  | s x => exact parse_date_valid x
  | l xs => exact epochDT_valid

theorem keyDT_valid (p : PDict) : ValidDT (keyDT p) :=
  sortDateVal_valid _

/-- The descending order the claim describes: later rows have a strictly
smaller parsed date, or an equal parsed date and a smaller-or-equal
case-folded title. -/
def dateTitleDesc (a b : PDict) : Prop :=
  dtLexLt (keyDT b) (keyDT a) ∨
    (keyDT a = keyDT b ∧ (keyTitle? b).getD [] ≤ (keyTitle? a).getD [])

def c5paperA : PDict :=
  [("Title", Val.s "A"), ("Link", Val.s "la"), ("Abstract", Val.s "aa"),
   ("Date", Val.s "2024-06-01T00:00:00Z"), ("Comment", Val.s "")]

def c5paperB : PDict :=
  [("Title", Val.s "B"), ("Link", Val.s "lb"), ("Abstract", Val.s "ab"),
   ("Date", Val.s "2023-01-01T00:00:00Z"), ("Comment", Val.s "")]

def c5paperC : PDict :=
  [("Title", Val.s "C"), ("Link", Val.s "lc"), ("Abstract", Val.s "ac"),
   ("Date", Val.s "1970-01-01T00:00:00Z"), ("Comment", Val.s "")]

set_option maxRecDepth 8000 in
/-- C5: the rows of `generate_table` are sorted descending by parsed `Date`
(epoch for unparseable dates), ties broken by descending case-insensitive
title; concretely, papers dated 2023-01-01, 2024-06-01 and 1970-01-01 with
titles B, A, C render as the 2024 entry, then the 2023 entry, then the
epoch entry. -/
theorem c5_generate_table_sorted :
    (∀ papers : List PDict, (∀ p ∈ papers, (keyTitle? p).isSome = true) →
        List.Pairwise dateTitleDesc (sortPapers papers)) ∧
      generate_table [c5paperB, c5paperA, c5paperC] []
        = some ("| **Title** | **Date** | **Abstract** | **Comment** |\n"
          ++ "| --- | --- | --- | --- |\n"
          ++ "| **[A](la)** | 2024-06-01 | "
          ++ "<details><summary>Show</summary><p>aa</p></details> |  |\n"
          ++ "| **[B](lb)** | 2023-01-01 | "
          ++ "<details><summary>Show</summary><p>ab</p></details> |  |\n"
          ++ "| **[C](lc)** | 1970-01-01 | "
          ++ "<details><summary>Show</summary><p>ac</p></details> |  |") := by
  constructor
  · intro papers hsome
    have hsorted : List.Pairwise paperDescRel (sortPapers papers) :=
      List.sorted_insertionSort paperDescRel papers
    have hperm := List.perm_insertionSort paperDescRel papers
    refine List.Pairwise.imp_of_mem ?_ hsorted
    intro a b ha hb hrel
    have ha' : a ∈ papers := hperm.mem_iff.mp ha
    have hb' : b ∈ papers := hperm.mem_iff.mp hb
    obtain ⟨ta, hta⟩ := Option.isSome_iff_exists.mp (hsome a ha')
    obtain ⟨tb, htb⟩ := Option.isSome_iff_exists.mp (hsome b hb')
    have hka : sortKey? a = some (encodeDT (keyDT a), ta) := by
      unfold sortKey?; rw [hta]; rfl
    have hkb : sortKey? b = some (encodeDT (keyDT b), tb) := by
      unfold sortKey?; rw [htb]; rfl
    unfold paperDescRel at hrel
    rw [hka, hkb] at hrel
    simp only [Option.getD_some] at hrel
    unfold dateTitleDesc
    rw [hta, htb]
    simp only [Option.getD_some]
    rcases hrel with hlt | ⟨heq, hle⟩
    · exact Or.inl ((encodeDT_lt_iff (keyDT_valid b) (keyDT_valid a)).mp hlt)
    · exact Or.inr ⟨((encodeDT_eq_iff (keyDT_valid b) (keyDT_valid a)).mp heq).symm, hle⟩
  · decide

/-- C5 witness: the three-paper example is pairwise sorted by descending
date with the descending-title tie-break. -/
theorem c5_witness :
    List.Pairwise dateTitleDesc (sortPapers [c5paperB, c5paperA, c5paperC]) :=
  c5_generate_table_sorted.1 [c5paperB, c5paperA, c5paperC] (by decide)

/-! ### C9 -/

/-- A paper carrying exactly the configured default `column_names` keys
(`Title, Link, Abstract, Date, Comment`) with string values, in order. -/
def mkDefaultPaper (t l a d c : String) : PDict :=
  [("Title", Val.s t), ("Link", Val.s l), ("Abstract", Val.s a),
   ("Date", Val.s d), ("Comment", Val.s c)]

theorem formatPaper_shape (ig : List String) (t l a d c : String) :
    formatPaper ["Title", "Link", "Abstract", "Date", "Comment"] ig
        (mkDefaultPaper t l a d c)
      = some ([("Title", Val.s (fmtTitleCell (Val.s t) (Val.s l))),
               ("Date", Val.s (String.mk ((splitOnChar 'T' d.data).headD [])))]
          ++ (if "Abstract" ∈ ig then []
              else [("Abstract", Val.s (abstractCell (Val.s a)))])
          ++ (if "Comment" ∈ ig then []
              else [("Comment", commentCell (Val.s c))])) := by
  by_cases hA : "Abstract" ∈ ig <;> by_cases hC : "Comment" ∈ ig <;>
    simp [formatPaper, formatKey, mkDefaultPaper, dictGet?, Val.asStr?,
      mapMOpt, hA, hC]

def c9paper : PDict :=
  mkDefaultPaper "T" "http-x" "some abstract" "2024-01-01T00:00:00Z" "venue"

/-- C9 counterexample: for a paper carrying exactly the default
`column_names` keys and an empty `ignore_keys`, the rendered columns are
`Title, Date, Abstract, Comment` — not the configured
`Title, Link, Abstract, Date, Comment`: in particular no `Link` column
appears (the link is folded into the Title cell). -/
theorem c9_no_link_column_cex :
    tableColumns [c9paper] [] = ["Title", "Date", "Abstract", "Comment"] ∧
      ¬ "Link" ∈ tableColumns [c9paper] [] ∧
      tableColumns [c9paper] [] ≠ ["Title", "Link", "Abstract", "Date", "Comment"] := by
  decide

/-- C9 (amended): for every non-empty papers list whose entries carry
exactly the default `column_names` keys with string values, the columns of
the rendered table are `Title`, then `Date`, then `Abstract` and `Comment`
in that order minus any of them in `ignore_keys`; `Link` and `Date` are
consumed by the Title-link and Date formatting, and `Link` never appears as
its own column. -/
theorem c9_columns (papers : List PDict) (ig : List String)
    (hne : papers ≠ [])
    (hshape : ∀ p ∈ papers, ∃ t l a d c, p = mkDefaultPaper t l a d c) :
    tableColumns papers ig
      = ["Title", "Date"]
        ++ (if "Abstract" ∈ ig then [] else ["Abstract"])
        ++ (if "Comment" ∈ ig then [] else ["Comment"]) := by
  have hperm := List.perm_insertionSort paperDescRel papers
  have hlen : (sortPapers papers).length = papers.length := hperm.length_eq
  unfold tableColumns formattedPapersOf
  cases hsor : sortPapers papers with
  | nil =>
      rw [hsor] at hlen
      cases papers with
      | nil => exact absurd rfl hne
      | cons q qs => simp at hlen
  | cons q qs =>
      have hq : q ∈ papers := by
        rw [show sortPapers papers = List.insertionSort paperDescRel papers from rfl]
          at hsor
        exact hperm.mem_iff.mp (hsor ▸ List.mem_cons_self q qs)
      obtain ⟨t, l, a, d, c, hqe⟩ := hshape q hq
      have hkeys : dictKeys ((q :: qs).headD [])
          = ["Title", "Link", "Abstract", "Date", "Comment"] := by
        rw [List.headD_cons, hqe]
        rfl
      dsimp only
      rw [hkeys, List.filterMap_cons, hqe, formatPaper_shape]
      simp only [List.headD_cons]
      by_cases hA : "Abstract" ∈ ig <;> by_cases hC : "Comment" ∈ ig <;>
        simp [hA, hC]

/-- C9 witness: a single default-shaped paper with `Abstract` ignored
renders the columns `Title, Date, Comment`. -/
theorem c9_witness :
    tableColumns [mkDefaultPaper "T" "L" "A" "2024-01-01T00:00:00Z" "C"]
        ["Abstract"] = ["Title", "Date", "Comment"] := by
  have h := c9_columns [mkDefaultPaper "T" "L" "A" "2024-01-01T00:00:00Z" "C"]
    ["Abstract"] (by simp)
    (fun p hp => ⟨"T", "L", "A", "2024-01-01T00:00:00Z", "C",
      by simpa using hp⟩)
  simpa using h

/-! ### C8 -/

theorem dictGet?_map_update (d : PDict) (k k2 : String) (v : Val) (h : k2 ≠ k) :
    dictGet? (d.map (fun kv => if kv.1 = k then (k, v) else kv)) k2
      = dictGet? d k2 := by
  induction d with
  | nil => rfl
  | cons kv rest ih =>
      obtain ⟨k0, v0⟩ := kv
      simp only [List.map_cons]
      by_cases hk : k0 = k
      · rw [if_pos hk]
        simp only [dictGet?]
        have hne : ¬ (k = k2) := fun hh => h hh.symm
        rw [if_neg hne, if_neg (fun hh => hne (hk ▸ hh))]
        exact ih
      · rw [if_neg hk]
        simp only [dictGet?]
        by_cases h2 : k0 = k2
        · rw [if_pos h2, if_pos h2]
        · rw [if_neg h2, if_neg h2]
          exact ih

theorem dictGet?_append_one (d : PDict) (k k2 : String) (v : Val) (h : k2 ≠ k) :
    dictGet? (d ++ [(k, v)]) k2 = dictGet? d k2 := by
  induction d with
  | nil =>
      have hne : ¬ (k = k2) := fun hh => h hh.symm
      rw [List.nil_append]
      simp only [dictGet?]
      rw [if_neg hne]
  | cons kv rest ih =>
      obtain ⟨k0, v0⟩ := kv
      rw [List.cons_append]
      simp only [dictGet?]
      by_cases h2 : k0 = k2
      · rw [if_pos h2, if_pos h2]
      · rw [if_neg h2, if_neg h2]
        exact ih

theorem dictGet?_dictSet_ne (d : PDict) (k k2 : String) (v : Val) (h : k2 ≠ k) :
    dictGet? (dictSet d k v) k2 = dictGet? d k2 := by
  unfold dictSet
  split
  · exact dictGet?_map_update d k k2 v h
  · exact dictGet?_append_one d k k2 v h

theorem dvconWriteAbstract_keeps_date (abstract? : Option String) (entry : PDict) :
    dictGet? (dvconWriteAbstract abstract? entry) "Date" = dictGet? entry "Date" := by
  unfold dvconWriteAbstract
  cases abstract? with
  | none => rfl
  | some a =>
      dsimp only
      split
      · exact dictGet?_dictSet_ne entry "Abstract" "Date" (Val.s a) (by decide)
      · rfl

theorem dvconProcessEntry_keeps_date (o : DvconOracle) (cy : Nat) (entry : PDict)
    (dstr : String) (hd : dictGet? entry "Date" = some (Val.s dstr))
    (h1 : ("1970-01-01".data.isPrefixOf dstr.data) = false) (h2 : dstr ≠ "") :
    dictGet? (dvconProcessEntry o cy entry) "Date" = some (Val.s dstr) := by
  unfold dvconProcessEntry
  cases o.matchedStem with
  | none => exact hd
  | some stem =>
      dsimp only
      have hd1 : dictGet? (dvconWriteAbstract o.abstract entry) "Date"
          = some (Val.s dstr) := by
        rw [dvconWriteAbstract_keeps_date]; exact hd
      have hgd : dictGetD (dvconWriteAbstract o.abstract entry) "Date" (Val.s "")
          = Val.s dstr := by
        unfold dictGetD; rw [hd1]; rfl
      rw [hgd]
      dsimp only [Val.asStr?]
      have hbeq : (dstr == "") = false := by
        cases hb : dstr == "" with
        | false => rfl
        | true => exact absurd (by simpa using hb) h2
      rw [h1, hbeq]
      cases inferDvconYear stem o.pageText cy with
      | none => exact hd1
      | some y =>
          dsimp only
          rw [if_neg (by simp)]
          exact hd1

/-- C8: during DVCon abstract/year extraction, an entry whose `Date` is
already a non-placeholder, non-empty string keeps that exact `Date` in the
corresponding output entry, whatever the PDF lookup, abstract extraction and
year inference yield. -/
theorem c8_dvcon_never_overwrites_date (oracle : PDict → DvconOracle) (cy : Nat)
    (entries : List PDict) :
    List.Forall₂
      (fun e e2 => ∀ dstr : String, dictGet? e "Date" = some (Val.s dstr) →
        ("1970-01-01".data.isPrefixOf dstr.data) = false → dstr ≠ "" →
        dictGet? e2 "Date" = some (Val.s dstr))
      entries (extract_abstracts_from_downloaded_dvcon_pdfs oracle cy entries) := by
  unfold extract_abstracts_from_downloaded_dvcon_pdfs
  induction entries with
  | nil => exact List.Forall₂.nil
  | cons e rest ih =>
      rw [List.map_cons]
      exact List.Forall₂.cons
        (fun dstr hd h1 h2 => dvconProcessEntry_keeps_date (oracle e) cy e dstr hd h1 h2)
        ih

def c8entry : PDict := [("Title", Val.s "T"), ("Date", Val.s "2023-05-01T00:00:00Z")]

def c8oracle : PDict → DvconOracle :=
  fun _ => ⟨some "DVConEU_2025_paper_132", some "An abstract", none⟩

/-- C8 witness: an entry dated 2023-05-01 keeps its date although the
matched PDF stem carries the year 2025. -/
theorem c8_witness :
    dictGet?
        ((extract_abstracts_from_downloaded_dvcon_pdfs c8oracle 2026 [c8entry]).headD [])
        "Date" = some (Val.s "2023-05-01T00:00:00Z") := by
  have h := c8_dvcon_never_overwrites_date c8oracle 2026 [c8entry]
  rw [show extract_abstracts_from_downloaded_dvcon_pdfs c8oracle 2026 [c8entry]
      = [dvconProcessEntry (c8oracle c8entry) 2026 c8entry] from rfl] at h ⊢
  cases h with
  | cons hrel _ =>
      rw [List.headD_cons]
      exact hrel "2023-05-01T00:00:00Z" (by decide) (by decide) (by decide)

/-! ### C7 -/

theorem joinSpace_mem (parts : List (List Char)) (ch : Char)
    (h : ch ∈ joinSpace parts) : (∃ l ∈ parts, ch ∈ l) ∨ ch = ' ' := by
  induction parts with
  | nil => simp [joinSpace] at h
  | cons x rest ih =>
      cases rest with
      | nil =>
          exact Or.inl ⟨x, List.mem_cons_self x [], by simpa [joinSpace] using h⟩
      | cons y rest2 =>
          rw [joinSpace] at h
          rcases List.mem_append.mp h with hx | hrest
          · exact Or.inl ⟨x, List.mem_cons_self x (y :: rest2), hx⟩
          · rcases List.mem_cons.mp hrest with hsp | hj
            · exact Or.inr hsp
            · rcases ih hj with ⟨l, hl, hcl⟩ | hsp
              · exact Or.inl ⟨l, List.mem_cons_of_mem x hl, hcl⟩
              · exact Or.inr hsp

theorem splitlinesAux_no_break :
    ∀ (cs acc : List Char) (afterCR : Bool),
      (∀ ch ∈ acc, isPyLineBreak ch = false) →
      ∀ l ∈ splitlinesAux acc afterCR cs, ∀ ch ∈ l, isPyLineBreak ch = false := by
  intro cs
  induction cs with
  | nil =>
      intro acc afterCR hacc l hl ch hch
      simp only [splitlinesAux] at hl
      split at hl
      · exact absurd hl (List.not_mem_nil l)
      · rw [List.mem_singleton.mp hl] at hch
        exact hacc ch (List.mem_reverse.mp hch)
  | cons c rest ih =>
      intro acc afterCR hacc l hl ch hch
      simp only [splitlinesAux] at hl
      split at hl
      · exact ih acc false hacc l hl ch hch
      · split at hl
        · rcases List.mem_cons.mp hl with hadd | hrec
          · rw [hadd] at hch
            exact hacc ch (List.mem_reverse.mp hch)
          · exact ih [] true (fun ch2 hch2 => absurd hch2 (List.not_mem_nil ch2))
              l hrec ch hch
        · split at hl
          · rcases List.mem_cons.mp hl with hadd | hrec
            · rw [hadd] at hch
              exact hacc ch (List.mem_reverse.mp hch)
            · exact ih [] false (fun ch2 hch2 => absurd hch2 (List.not_mem_nil ch2))
                l hrec ch hch
          · next hbr =>
              refine ih (c :: acc) false ?_ l hl ch hch
              intro ch2 hch2
              rcases List.mem_cons.mp hch2 with hc | hmem
              · rw [hc]
                exact (Bool.not_eq_true _).mp hbr
              · exact hacc ch2 hmem

theorem pyStrip_mem (s : String) (ch : Char) (h : ch ∈ (pyStrip s).data) :
    ch ∈ s.data := by
  unfold pyStrip at h
  rw [show (String.mk (((s.data.dropWhile isPySpace).reverse.dropWhile
      isPySpace).reverse)).data
    = ((s.data.dropWhile isPySpace).reverse.dropWhile isPySpace).reverse from rfl] at h
  rw [List.mem_reverse] at h
  have h2 : ch ∈ (s.data.dropWhile isPySpace).reverse :=
    (List.dropWhile_sublist _).subset h
  rw [List.mem_reverse] at h2
  exact (List.dropWhile_sublist _).subset h2

theorem collapseLines_no_break (s : String) :
    ∀ ch ∈ (collapseLines s).data, ch ≠ '\n' ∧ ch ≠ '\r' := by
  intro ch hch
  unfold collapseLines at hch
  rw [show (String.mk (joinSpace
      ((((splitlinesAux [] false (pyStrip s).data).map
          (fun l => pyStrip (String.mk l))).filter (fun l => l ≠ "")).map
        String.data))).data
    = joinSpace ((((splitlinesAux [] false (pyStrip s).data).map
        (fun l => pyStrip (String.mk l))).filter (fun l => l ≠ "")).map
      String.data) from rfl] at hch
  rcases joinSpace_mem _ ch hch with ⟨l, hl, hcl⟩ | hsp
  · obtain ⟨str, hstr, hdata⟩ := List.mem_map.mp hl
    have hstr2 := (List.mem_filter.mp hstr).1
    obtain ⟨l0, hl0, hpl⟩ := List.mem_map.mp hstr2
    rw [← hdata] at hcl
    rw [← hpl] at hcl
    have hmem0 : ch ∈ l0 := pyStrip_mem (String.mk l0) ch hcl
    have hnb := splitlinesAux_no_break (pyStrip s).data [] false
      (fun ch2 hch2 => absurd hch2 (List.not_mem_nil ch2)) l0 hl0 ch hmem0
    constructor
    · intro hh; rw [hh] at hnb; simp [isPyLineBreak] at hnb
    · intro hh; rw [hh] at hnb; simp [isPyLineBreak] at hnb
  · rw [hsp]
    exact ⟨by decide, by decide⟩

/-- C7: `extract_abstract_from_text` returns `none` exactly when the lowered
text has no word-boundary occurrence of "abstract" or the captured span
(from just after that word up to the nearest stop heading, or end-of-text)
collapses to the empty string; any returned abstract is exactly the
collapsed captured span, is non-empty, and contains no line break. -/
theorem c7_extract_abstract_spec (text : String) :
    ((extract_abstract_from_text text = none) ↔
      (findAbstractMarker (pyLower text) = none
        ∨ collapseLines (capturedSpan text) = "")) ∧
    (∀ s, extract_abstract_from_text text = some s →
      s = collapseLines (capturedSpan text) ∧ s ≠ "" ∧
        ∀ ch ∈ s.data, ch ≠ '\n' ∧ ch ≠ '\r') := by
  constructor
  · unfold extract_abstract_from_text
    split
    next ht =>
      subst ht
      simp [show findAbstractMarker (pyLower "") = none from by decide]
    next ht =>
      cases hm : findAbstractMarker (pyLower text) with
      | none => simp
      | some start =>
          dsimp only
          split
          next he => simp [he]
          next he => simp [he, hm]
  · intro s hs
    unfold extract_abstract_from_text at hs
    split at hs
    next => exact absurd hs (by simp)
    next =>
      cases hm : findAbstractMarker (pyLower text) with
      | none => rw [hm] at hs; exact absurd hs (by simp)
      | some start =>
          rw [hm] at hs
          dsimp only at hs
          split at hs
          next => exact absurd hs (by simp)
          next hne =>
            cases hs
            exact ⟨rfl, hne, fun ch hch => collapseLines_no_break _ ch hch⟩

def c7text : String :=
  "Abstract\nThis is a verification\npaper about UVM.\n1. Introduction\nIntro text"

set_option maxRecDepth 4000 in
/-- C7 witness: a DVCon-style fragment whose abstract is captured up to the
"1. Introduction" heading, collapsed to a single line. -/
theorem c7_witness :
    "This is a verification paper about UVM."
        = collapseLines (capturedSpan c7text) ∧
      "This is a verification paper about UVM." ≠ "" ∧
      ∀ ch ∈ ("This is a verification paper about UVM.").data,
        ch ≠ '\n' ∧ ch ≠ '\r' :=
  (c7_extract_abstract_spec c7text).2 "This is a verification paper about UVM."
    (by decide)

end DVNews
